import Mathlib

/-!
Verification of the design-data normalization and layout-derivation engine
of the architect_plus repository, against its natural-language specification.

The engine is embedded shallowly:
* `App` embeds the design-document normalizer of `app.py`
  (`validate_and_enhance_design` and the three derivation helpers).
* `GeminiJsonReader` embeds the department classifier of
  `gemini_json_reader.py` (`get_department_data`, `_categorize_room`,
  `_calculate_adjacency_weight`).
* `Dynamo` embeds the layout packer of
  `dynamo_spaceplanning_integration.py` (`create_department_data_stack`,
  `place_departments_on_site`, `place_programs_in_departments`,
  `run_complete_spaceplanning`), in the configuration this repository
  actually runs in (the Dynamo geometry library is unavailable, so the
  mock-geometry branch is taken; fallible operations return `Option`,
  with `none` standing for a raised Python exception).

JSON numbers are modelled as rationals (`ℚ`); a JSON mapping with
optional keys is modelled as a structure with `Option` fields.
-/

set_option maxHeartbeats 1000000

namespace App

/-- A 3D position `{x, y, z}`. -/
structure Pos where
  x : ℚ
  y : ℚ
  z : ℚ
  deriving Repr, DecidableEq

/-- The `project` section (fields used by the normalizer's synthesized default). -/
structure Project where
  name : String
  style : String
  floors : Int
  deriving Repr, DecidableEq

/-- A room as it may arrive in the raw design document: every field optional. -/
structure RoomIn where
  name : Option String := none
  floor : Option Int := none
  width : Option ℚ := none
  depth : Option ℚ := none
  height : Option ℚ := none
  position : Option Pos := none
  shape : Option String := none
  deriving Repr, DecidableEq

/-- A room after validation: dimensions, position and shape are all present. -/
structure RoomOut where
  name : Option String
  floor : Option Int
  width : ℚ
  depth : ℚ
  height : ℚ
  position : Pos
  shape : String
  deriving Repr, DecidableEq

/-- A wall segment `{start, end, height, thickness}`. -/
structure Wall where
  start : Pos
  end_ : Pos
  height : ℚ
  thickness : ℚ
  deriving Repr, DecidableEq

/-- A door or window opening. -/
structure Opening where
  type : String
  wall_id : Nat
  position : ℚ
  width : ℚ
  height : ℚ
  deriving Repr, DecidableEq

/-- A structural element (the derivation only produces columns). -/
structure Structural where
  type : String
  position : Pos
  diameter : ℚ
  height : ℚ
  deriving Repr, DecidableEq

/-- The `exterior.roof` subsection. -/
structure Roof where
  type : String
  pitch : ℚ
  deriving Repr, DecidableEq

/-- The `exterior.facade` subsection. -/
structure Facade where
  material : String
  color : String
  deriving Repr, DecidableEq

/-- The `exterior` section. -/
structure Exterior where
  roof : Roof
  facade : Facade
  deriving Repr, DecidableEq

/-- The raw design document handed to `validate_and_enhance_design`:
any of the six sections may be missing. -/
structure DesignInput where
  project : Option Project := none
  rooms : Option (List RoomIn) := none
  walls : Option (List Wall) := none
  openings : Option (List Opening) := none
  structural : Option (List Structural) := none
  exterior : Option Exterior := none
  deriving Repr, DecidableEq

/-- The normalized design document: all six sections present. -/
structure Design where
  project : Project
  rooms : List RoomOut
  walls : List Wall
  openings : List Opening
  structural : List Structural
  exterior : Exterior
  deriving Repr, DecidableEq

/-- The default room synthesized when `rooms` is missing or empty
(`app.py`, `validate_and_enhance_design`). -/
def defaultRoom : RoomIn :=
  { name := some "Living Room"
    floor := some 1
    width := some 6, depth := some 5, height := some 3
    position := some ⟨0, 0, 0⟩
    shape := some "rectangle" }

/-- The per-room validation loop body of `validate_and_enhance_design`:
clamp `width`/`depth` to `[2, 15]` and `height` to `[2.2, 5]` (defaulting
absent dimensions to 4, 4, 3), default `position` to the origin and
`shape` to `"rectangle"`. -/
def validateRoom (r : RoomIn) : RoomOut :=
  { name := r.name
    floor := r.floor
    width := max 2 (min 15 (r.width.getD 4))
    depth := max 2 (min 15 (r.depth.getD 4))
    height := max 2.2 (min 5 (r.height.getD 3))
    position := r.position.getD ⟨0, 0, 0⟩
    shape := r.shape.getD "rectangle" }

/-- The four walls generated around one room (`generate_walls_from_rooms`
loop body): bottom, right, top, left edge of the footprint, in order. -/
def wallsOfRoom (room : RoomOut) : List Wall :=
  let pos := room.position
  let w := room.width
  let d := room.depth
  let h := room.height
  [ { start := ⟨pos.x, pos.y, pos.z⟩, end_ := ⟨pos.x + w, pos.y, pos.z⟩
      height := h, thickness := 0.2 },
    { start := ⟨pos.x + w, pos.y, pos.z⟩, end_ := ⟨pos.x + w, pos.y + d, pos.z⟩
      height := h, thickness := 0.2 },
    { start := ⟨pos.x + w, pos.y + d, pos.z⟩, end_ := ⟨pos.x, pos.y + d, pos.z⟩
      height := h, thickness := 0.2 },
    { start := ⟨pos.x, pos.y + d, pos.z⟩, end_ := ⟨pos.x, pos.y, pos.z⟩
      height := h, thickness := 0.2 } ]

/-- `generate_walls_from_rooms` of `app.py`. -/
def generate_walls_from_rooms : List RoomOut → List Wall
  | [] => []
  | room :: rest => wallsOfRoom room ++ generate_walls_from_rooms rest

/-- `generate_basic_openings` of `app.py`: iterate over the first
`min(len(walls), 4)` walls; even indices get a door (0.9 × 2.1),
odd indices a window (1.2 × 1.0). -/
def generate_basic_openings (walls : List Wall) : List Opening :=
  ((walls.take (min walls.length 4)).enum).map (fun iw =>
    if iw.1 % 2 = 0 then
      { type := "door", wall_id := iw.1, position := 1.0, width := 0.9, height := 2.1 }
    else
      { type := "window", wall_id := iw.1, position := 1.5, width := 1.2, height := 1.0 })

/-- The column generated at the center of a large room
(`generate_structural_elements` loop body). -/
def columnOfRoom (room : RoomOut) : Structural :=
  { type := "column"
    position := ⟨room.position.x + room.width / 2,
                 room.position.y + room.depth / 2,
                 room.position.z⟩
    diameter := 0.3
    height := room.height }

/-- `generate_structural_elements` of `app.py`: one centered column per
room whose width or depth exceeds 8. -/
def generate_structural_elements : List RoomOut → List Structural
  | [] => []
  | room :: rest =>
      (if 8 < room.width ∨ 8 < room.depth then [columnOfRoom room] else [])
        ++ generate_structural_elements rest

/-- The `exterior` section synthesized when it is missing. -/
def defaultExterior : Exterior :=
  { roof := { type := "gabled", pitch := 30 }
    facade := { material := "brick", color := "red" } }

/-- `validate_and_enhance_design` of `app.py`: synthesize missing
sections, clamp room dimensions, derive walls/openings/structural
geometry when those sections are absent from the input. -/
def validate_and_enhance_design (d : DesignInput) : Design :=
  let project := d.project.getD
    { name := "Generated Building", style := "modern", floors := 1 }
  let rooms0 := match d.rooms with
    | none => [defaultRoom]
    | some rs => if rs.isEmpty then [defaultRoom] else rs
  let rooms := rooms0.map validateRoom
  let walls := match d.walls with
    | none => generate_walls_from_rooms rooms
    | some ws => ws
  let openings := match d.openings with
    | none => generate_basic_openings walls
    | some os => os
  let structural := match d.structural with
    | none => generate_structural_elements rooms
    | some ss => ss
  let exterior := d.exterior.getD defaultExterior
  { project := project, rooms := rooms, walls := walls
    openings := openings, structural := structural, exterior := exterior }

/-! ### Helper lemmas about the derivation helpers -/

theorem wallsOfRoom_length (room : RoomOut) : (wallsOfRoom room).length = 4 := rfl

theorem generate_walls_length (rooms : List RoomOut) :
    (generate_walls_from_rooms rooms).length = 4 * rooms.length := by
  induction rooms with
  | nil => rfl
  | cons room rest ih =>
      simp [generate_walls_from_rooms, wallsOfRoom_length, ih]
      ring

theorem generate_walls_segment (rooms : List RoomOut) (k : Nat)
    (hk : k < rooms.length) :
    ((generate_walls_from_rooms rooms).drop (4 * k)).take 4 =
      wallsOfRoom (rooms.get ⟨k, hk⟩) := by
  induction rooms generalizing k with
  | nil => exact absurd hk (by simp)
  | cons room rest ih =>
      cases k with
      | zero =>
          simp [generate_walls_from_rooms, wallsOfRoom]
      | succ k =>
          have h4 : 4 * (k + 1) = (wallsOfRoom room).length + 4 * k := by
            simp [wallsOfRoom_length]; ring
          rw [generate_walls_from_rooms, h4, List.drop_append]
          exact ih k (Nat.lt_of_succ_lt_succ hk)

theorem generate_structural_eq_filter_map (rooms : List RoomOut) :
    generate_structural_elements rooms =
      (rooms.filter (fun room => decide (8 < room.width ∨ 8 < room.depth))).map
        columnOfRoom := by
  induction rooms with
  | nil => rfl
  | cons room rest ih =>
      by_cases h : 8 < room.width ∨ 8 < room.depth
      · simp [generate_structural_elements, List.filter_cons, h, ih]
      · simp [generate_structural_elements, List.filter_cons, h, ih]

theorem generate_basic_openings_length (walls : List Wall) :
    (generate_basic_openings walls).length = min walls.length 4 := by
  simp [generate_basic_openings, List.enum_length, List.length_take]

theorem generate_basic_openings_get (walls : List Wall) (i : Nat)
    (hi : i < (generate_basic_openings walls).length) :
    (generate_basic_openings walls).get ⟨i, hi⟩ =
      (if i % 2 = 0 then
        { type := "door", wall_id := i, position := 1.0, width := 0.9, height := 2.1 }
      else
        { type := "window", wall_id := i, position := 1.5, width := 1.2, height := 1.0 }) := by
  simp only [generate_basic_openings, List.get_eq_getElem, List.getElem_map,
    List.getElem_enum]

/-! ### Theorems for the claims about the normalizer -/

/-- **C1.** `validate_and_enhance_design` always returns a document with all
six sections (encoded by the total output type `Design`, with a non-empty
room list); a missing `project` is synthesized with style `"modern"` and
`floors = 1`; missing-or-empty `rooms` become exactly one default Living
Room of width 6, depth 5, height 3 at the origin; a missing `exterior`
defaults to a gabled roof of pitch 30 and a red brick facade. -/
theorem normalizer_defaults_c1 (d : DesignInput) :
    (validate_and_enhance_design d).rooms ≠ [] ∧
    (d.project = none →
      (validate_and_enhance_design d).project =
        { name := "Generated Building", style := "modern", floors := 1 }) ∧
    ((d.rooms = none ∨ d.rooms = some []) →
      (validate_and_enhance_design d).rooms =
        [{ name := some "Living Room", floor := some 1,
           width := 6, depth := 5, height := 3,
           position := ⟨0, 0, 0⟩, shape := "rectangle" }]) ∧
    (d.exterior = none →
      (validate_and_enhance_design d).exterior = defaultExterior) := by
  refine ⟨?_, ?_, ?_, ?_⟩
  · rcases d with ⟨p, rs, w, o, s, e⟩
    rcases rs with _ | rs
    · simp [validate_and_enhance_design]
    · rcases rs with _ | ⟨r, rs⟩ <;>
        simp [validate_and_enhance_design, defaultRoom]
  · intro hp
    simp [validate_and_enhance_design, hp]
  · rintro (hr | hr) <;>
      simp [validate_and_enhance_design, hr, defaultRoom, validateRoom] <;>
      norm_num
  · intro he
    simp [validate_and_enhance_design, he]

/-- Witness for `normalizer_defaults_c1` at the empty input document. -/
theorem normalizer_defaults_c1_witness :
    (validate_and_enhance_design {}).rooms ≠ [] ∧
    (validate_and_enhance_design {}).project =
      { name := "Generated Building", style := "modern", floors := 1 } ∧
    (validate_and_enhance_design {}).rooms =
      [{ name := some "Living Room", floor := some 1,
         width := 6, depth := 5, height := 3,
         position := ⟨0, 0, 0⟩, shape := "rectangle" }] ∧
    (validate_and_enhance_design {}).exterior = defaultExterior := by
  obtain ⟨h1, h2, h3, h4⟩ := normalizer_defaults_c1 {}
  exact ⟨h1, h2 rfl, h3 (Or.inl rfl), h4 rfl⟩

/-- **C2.** After normalization every room's width and depth lie in `[2, 15]`
and its height lies in `[2.2, 5]`, for arbitrary input documents (absent,
zero, negative or oversized input dimensions included). -/
theorem room_clamping_c2 (d : DesignInput) (r : RoomOut)
    (hr : r ∈ (validate_and_enhance_design d).rooms) :
    2 ≤ r.width ∧ r.width ≤ 15 ∧ 2 ≤ r.depth ∧ r.depth ≤ 15 ∧
    (2.2 : ℚ) ≤ r.height ∧ r.height ≤ 5 := by
  have hmem : ∃ r0, r = validateRoom r0 := by
    rcases d with ⟨p, rs, w, o, s, e⟩
    rcases rs with _ | rs
    · simp only [validate_and_enhance_design, List.mem_map] at hr
      obtain ⟨r0, _, h⟩ := hr
      exact ⟨r0, h.symm⟩
    · simp only [validate_and_enhance_design] at hr
      rcases hrs : rs.isEmpty with _ | _ <;> rw [hrs] at hr <;>
        simp only [List.mem_map] at hr <;>
        obtain ⟨r0, _, h⟩ := hr <;> exact ⟨r0, h.symm⟩
  obtain ⟨r0, rfl⟩ := hmem
  refine ⟨le_max_left _ _, ?_, le_max_left _ _, ?_, le_max_left _ _, ?_⟩
  · exact max_le (by norm_num) (min_le_left _ _)
  · exact max_le (by norm_num) (min_le_left _ _)
  · exact max_le (by norm_num) (min_le_left _ _)

/-- Witness for `room_clamping_c2`: a room with negative width, oversized
depth and absent height. -/
theorem room_clamping_c2_witness :
    ∃ r ∈ (validate_and_enhance_design
        { rooms := some [{ width := some (-3), depth := some 99 }] }).rooms,
      2 ≤ r.width ∧ r.width ≤ 15 ∧ 2 ≤ r.depth ∧ r.depth ≤ 15 ∧
      (2.2 : ℚ) ≤ r.height ∧ r.height ≤ 5 := by
  have hmem : validateRoom { width := some (-3), depth := some 99 } ∈
      (validate_and_enhance_design
        { rooms := some [{ width := some (-3), depth := some 99 }] }).rooms := by
    simp [validate_and_enhance_design]
  exact ⟨_, hmem, room_clamping_c2 _ _ hmem⟩

/-- **C3.** When the input has no `walls` section, the normalized document
has exactly `4 × number_of_rooms` walls, and the 4 walls derived for the
`k`-th room trace its rectangular footprint — corners `(x, y)`,
`(x+width, y)`, `(x+width, y+depth)`, `(x, y+depth)` at the room's `z` —
clockwise starting at the room's origin corner. -/
theorem wall_derivation_c3 (d : DesignInput) (hw : d.walls = none) :
    (validate_and_enhance_design d).walls.length =
      4 * (validate_and_enhance_design d).rooms.length ∧
    ∀ k (hk : k < (validate_and_enhance_design d).rooms.length),
      (((validate_and_enhance_design d).walls.drop (4 * k)).take 4) =
        (let room := (validate_and_enhance_design d).rooms.get ⟨k, hk⟩
         let p := room.position
         [ { start := ⟨p.x, p.y, p.z⟩, end_ := ⟨p.x + room.width, p.y, p.z⟩,
             height := room.height, thickness := 0.2 },
           { start := ⟨p.x + room.width, p.y, p.z⟩,
             end_ := ⟨p.x + room.width, p.y + room.depth, p.z⟩,
             height := room.height, thickness := 0.2 },
           { start := ⟨p.x + room.width, p.y + room.depth, p.z⟩,
             end_ := ⟨p.x, p.y + room.depth, p.z⟩,
             height := room.height, thickness := 0.2 },
           { start := ⟨p.x, p.y + room.depth, p.z⟩, end_ := ⟨p.x, p.y, p.z⟩,
             height := room.height, thickness := 0.2 } ]) := by
  have hwd : (validate_and_enhance_design d).walls =
      generate_walls_from_rooms (validate_and_enhance_design d).rooms := by
    simp [validate_and_enhance_design, hw]
  constructor
  · rw [hwd, generate_walls_length]
  · intro k hk
    rw [hwd, generate_walls_segment _ k hk]
    rfl

/-- Witness for `wall_derivation_c3` at the empty input document
(one default room, four derived walls). -/
theorem wall_derivation_c3_witness :
    (validate_and_enhance_design {}).walls.length =
      4 * (validate_and_enhance_design {}).rooms.length ∧
    (((validate_and_enhance_design {}).walls.drop 0).take 4) =
      [ { start := ⟨0, 0, 0⟩, end_ := ⟨6, 0, 0⟩, height := 3, thickness := 0.2 },
        { start := ⟨6, 0, 0⟩, end_ := ⟨6, 5, 0⟩, height := 3, thickness := 0.2 },
        { start := ⟨6, 5, 0⟩, end_ := ⟨0, 5, 0⟩, height := 3, thickness := 0.2 },
        { start := ⟨0, 5, 0⟩, end_ := ⟨0, 0, 0⟩, height := 3, thickness := 0.2 } ] := by
  obtain ⟨h1, h2⟩ := wall_derivation_c3 {} rfl
  refine ⟨h1, ?_⟩
  norm_num [validate_and_enhance_design, defaultRoom, validateRoom,
    generate_walls_from_rooms, wallsOfRoom, max_def, min_def]

/-- **C4.** When the input has no `structural` section, the derived
structural list consists of exactly one column — type `"column"`,
diameter 0.3, height the room's height, centered at
`(x + width/2, y + depth/2)` — for each room with width > 8 or depth > 8,
and nothing for any other room. -/
theorem column_derivation_c4 (d : DesignInput) (hs : d.structural = none) :
    (validate_and_enhance_design d).structural =
      ((validate_and_enhance_design d).rooms.filter
        (fun room => decide (8 < room.width ∨ 8 < room.depth))).map
        (fun room =>
          { type := "column",
            position := ⟨room.position.x + room.width / 2,
                         room.position.y + room.depth / 2,
                         room.position.z⟩,
            diameter := 0.3, height := room.height }) ∧
    (validate_and_enhance_design d).structural.length =
      ((validate_and_enhance_design d).rooms.filter
        (fun room => decide (8 < room.width ∨ 8 < room.depth))).length := by
  have hsd : (validate_and_enhance_design d).structural =
      generate_structural_elements (validate_and_enhance_design d).rooms := by
    simp [validate_and_enhance_design, hs]
  constructor
  · rw [hsd, generate_structural_eq_filter_map]
    rfl
  · rw [hsd, generate_structural_eq_filter_map, List.length_map]

/-- Witness for `column_derivation_c4`: one 10 × 6 room yields exactly one
column at its center, one 4 × 4 room yields none. -/
theorem column_derivation_c4_witness :
    (validate_and_enhance_design
        { rooms := some
            [ { width := some 10, depth := some 6, position := some ⟨0, 0, 0⟩ },
              { width := some 4, depth := some 4, position := some ⟨20, 0, 0⟩ } ] }).structural =
      [ { type := "column", position := ⟨5, 3, 0⟩, diameter := 0.3, height := 3 } ] := by
  have h := (column_derivation_c4
    { rooms := some
        [ { width := some 10, depth := some 6, position := some ⟨0, 0, 0⟩ },
          { width := some 4, depth := some 4, position := some ⟨20, 0, 0⟩ } ] } rfl).1
  rw [h]
  norm_num [validate_and_enhance_design, validateRoom, max_def, min_def]

/-- **C8.** When the input has no `openings` section, the derived openings
cover the first `min(len(walls), 4)` walls with exactly one opening per
covered wall, alternating by parity: even wall indices receive a door of
width 0.9 and height 2.1, odd wall indices a window with the fixed default
dimensions (width 1.2, height 1.0). -/
theorem opening_derivation_c8 (d : DesignInput) (ho : d.openings = none) :
    (validate_and_enhance_design d).openings.length =
      min (validate_and_enhance_design d).walls.length 4 ∧
    ∀ i (hi : i < (validate_and_enhance_design d).openings.length),
      (validate_and_enhance_design d).openings.get ⟨i, hi⟩ =
        (if i % 2 = 0 then
          { type := "door", wall_id := i, position := 1.0, width := 0.9, height := 2.1 }
        else
          { type := "window", wall_id := i, position := 1.5, width := 1.2, height := 1.0 }) := by
  have hod : (validate_and_enhance_design d).openings =
      generate_basic_openings (validate_and_enhance_design d).walls := by
    simp [validate_and_enhance_design, ho]
  constructor
  · rw [hod, generate_basic_openings_length]
  · intro i hi
    rw [List.get_of_eq hod]
    exact generate_basic_openings_get _ i _

/-- Witness for `opening_derivation_c8` at the empty input document:
four derived walls, hence four openings in door/window/door/window order. -/
theorem opening_derivation_c8_witness :
    (validate_and_enhance_design {}).openings.length =
      min (validate_and_enhance_design {}).walls.length 4 ∧
    (validate_and_enhance_design {}).openings =
      [ { type := "door", wall_id := 0, position := 1.0, width := 0.9, height := 2.1 },
        { type := "window", wall_id := 1, position := 1.5, width := 1.2, height := 1.0 },
        { type := "door", wall_id := 2, position := 1.0, width := 0.9, height := 2.1 },
        { type := "window", wall_id := 3, position := 1.5, width := 1.2, height := 1.0 } ] := by
  obtain ⟨h1, h2⟩ := opening_derivation_c8 {} rfl
  refine ⟨h1, ?_⟩
  have hlen : (validate_and_enhance_design {}).openings.length = 4 := by decide
  apply List.ext_get (by rw [hlen]; rfl)
  intro i hi hi4
  have := h2 i hi
  rw [this]
  have hi4' : i < 4 := by simpa using hi4
  interval_cases i <;> rfl

end App

namespace GeminiJsonReader

/-- A room as read by `GeminiJsonReader.get_department_data`: `name`,
`width`, `depth` are accessed unconditionally, the rest via `.get`. -/
structure GRoom where
  name : String
  width : ℚ
  depth : ℚ
  floor : Option Int := none
  height : Option ℚ := none
  position : Option App.Pos := none
  shape : Option String := none
  features : List String := []
  deriving Repr, DecidableEq

/-- Python's `str.lower()` (ASCII case folding suffices for the keyword sets). -/
def lowerStr (s : String) : String := s.map Char.toLower

/-- Python's `keyword in s` substring test. -/
def strContains (s k : String) : Bool := decide (k.toList <:+: s.toList)

/-- `GeminiJsonReader._categorize_room`: keyword heuristics over the
lowercased room name, first match wins. -/
def categorize_room (room_name : String) : String :=
  let n := lowerStr room_name
  if ["emergency", "trauma", "triage"].any (fun k => strContains n k) then
    "Emergency Department"
  else if ["surgical", "operating", "surgery"].any (fun k => strContains n k) then
    "Surgical Department"
  else if ["patient", "room", "bed"].any (fun k => strContains n k) then
    "Patient Care"
  else if ["office", "admin", "reception"].any (fun k => strContains n k) then
    "Administration"
  else if ["lab", "diagnostic", "imaging"].any (fun k => strContains n k) then
    "Diagnostic Services"
  else if ["garden", "healing", "wellness"].any (fun k => strContains n k) then
    "Wellness Areas"
  else if ["cafeteria", "dining", "kitchen"].any (fun k => strContains n k) then
    "Food Services"
  else if ["parking", "garage"].any (fun k => strContains n k) then
    "Parking"
  else
    "General Services"

/-- `GeminiJsonReader._calculate_adjacency_weight`. -/
def calculate_adjacency_weight (room : GRoom) : ℚ :=
  let n := lowerStr room.name
  let base : ℚ :=
    if ["emergency", "trauma", "surgical"].any (fun k => strContains n k) then 3.0
    else if ["patient", "room"].any (fun k => strContains n k) then 2.0
    else if ["office", "admin"].any (fun k => strContains n k) then 1.5
    else 1.0
  if room.features.any (fun f => strContains (lowerStr f) "critical") then
    base * 1.5
  else base

/-- A program entry appended to a department by `get_department_data`. -/
structure Program where
  id : Nat
  name : String
  area : ℚ
  quantity : ℚ
  width : ℚ
  depth : ℚ
  height : ℚ
  position : App.Pos
  shape : String
  features : List String
  adjacency_weight : ℚ
  deriving Repr, DecidableEq

/-- A department record built by `get_department_data`. -/
structure Department where
  name : String
  programs : List Program
  total_area : ℚ
  floor : Int
  deriving Repr, DecidableEq

/-- The program entry built from a room (`progCount` is the length of the
department's program list before the append; the source sets
`id = len(programs) + 1`). -/
def mkProgram (progCount : Nat) (r : GRoom) : Program :=
  { id := progCount + 1
    name := r.name
    area := r.width * r.depth
    quantity := 1
    width := r.width
    depth := r.depth
    height := r.height.getD 3.0
    position := r.position.getD ⟨0, 0, 0⟩
    shape := r.shape.getD "rectangle"
    features := r.features
    adjacency_weight := calculate_adjacency_weight r }

/-- Append one room's program to an existing department and accumulate
its area. -/
def pushRoom (d : Department) (r : GRoom) : Department :=
  { d with
    programs := d.programs ++ [mkProgram d.programs.length r]
    total_area := d.total_area + r.width * r.depth }

/-- The department record created when a category is seen first. -/
def freshDept (r : GRoom) : Department :=
  { name := categorize_room r.name
    programs := [mkProgram 0 r]
    total_area := r.width * r.depth
    floor := r.floor.getD 1 }

/-- One iteration of the `get_department_data` loop. The Python code keys
an insertion-ordered dict by department name; this is modelled as an
ordered list with unique names: an existing entry is updated in place, a
new category is appended at the end. -/
def addRoom (ds : List Department) (r : GRoom) : List Department :=
  if ds.any (fun d => d.name == categorize_room r.name) then
    ds.map (fun d => if d.name == categorize_room r.name then pushRoom d r else d)
  else
    ds ++ [freshDept r]

/-- `GeminiJsonReader.get_department_data`: group rooms into departments
by `_categorize_room`, accumulating per-department areas. -/
def get_department_data (rooms : List GRoom) : List Department :=
  rooms.foldl addRoom []

/-! ### The grouping invariant of `get_department_data` -/

/-- Invariant carried by the grouping loop: department names are unique,
areas and program counts add up over the processed rooms, every program
sits in the department of its category, and every processed room's
category has a department. -/
def Inv (ds : List Department) (processed : List GRoom) : Prop :=
  (ds.map Department.name).Nodup ∧
  (ds.map Department.total_area).sum =
    (processed.map (fun r => r.width * r.depth)).sum ∧
  (ds.map (fun d => d.programs.length)).sum = processed.length ∧
  (∀ d ∈ ds, d.programs.map Program.name =
    (processed.filter (fun r2 => categorize_room r2.name == d.name)).map GRoom.name) ∧
  (∀ r2 ∈ processed, categorize_room r2.name ∈ ds.map Department.name)

theorem pushRoom_name (d : Department) (r : GRoom) : (pushRoom d r).name = d.name := rfl

theorem map_update_id (r : GRoom) (c : String) (l : List Department)
    (h : ∀ d ∈ l, d.name ≠ c) :
    l.map (fun d => if d.name == c then pushRoom d r else d) = l := by
  apply List.map_congr_left ?_ |>.trans l.map_id
  intro d hd
  simp [h d hd]

theorem map_name_update (r : GRoom) (c : String) (ds : List Department) :
    (ds.map (fun d => if d.name == c then pushRoom d r else d)).map Department.name =
      ds.map Department.name := by
  rw [List.map_map]
  apply List.map_congr_left
  intro d _
  by_cases h : d.name = c <;> simp [h, pushRoom]

theorem sum_map_update {M : Type} [AddCommMonoid M] (g : Department → M) (δ : M)
    (r : GRoom) (c : String)
    (hg : ∀ d, g (pushRoom d r) = g d + δ) :
    ∀ ds : List Department, (ds.map Department.name).Nodup →
      c ∈ ds.map Department.name →
      ((ds.map (fun d => if d.name == c then pushRoom d r else d)).map g).sum =
        (ds.map g).sum + δ := by
  intro ds
  induction ds with
  | nil => intro _ hc; simp at hc
  | cons d rest ih =>
      intro hnd hc
      have hnd2 : (rest.map Department.name).Nodup := (List.nodup_cons.mp hnd).2
      have hdn : d.name ∉ rest.map Department.name := (List.nodup_cons.mp hnd).1
      by_cases hdc : d.name = c
      · have hrest : ∀ d2 ∈ rest, d2.name ≠ c := by
          intro d2 hd2 hne
          apply hdn
          have he : d2.name = d.name := hne.trans hdc.symm
          exact he ▸ List.mem_map_of_mem Department.name hd2
        simp only [List.map_cons, hdc, beq_self_eq_true, if_true, List.sum_cons,
          map_update_id r c rest hrest, hg]
        rw [add_right_comm]
      · have hc2 : c ∈ rest.map Department.name := by
          rcases List.mem_cons.mp hc with h | h
          · exact absurd h.symm hdc
          · exact h
        have : (d.name == c) = false := by simp [hdc]
        simp only [List.map_cons, this, Bool.false_eq_true, if_false, List.sum_cons,
          ih hnd2 hc2, add_assoc]

theorem addRoom_inv (ds : List Department) (processed : List GRoom) (r : GRoom)
    (h : Inv ds processed) : Inv (addRoom ds r) (processed ++ [r]) := by
  obtain ⟨hnd, hsum, hlen, hprog, hcat⟩ := h
  by_cases hex : ∃ d ∈ ds, d.name = categorize_room r.name
  case pos =>
    have hany : ds.any (fun d => d.name == categorize_room r.name) = true := by
      obtain ⟨d, hd, hdn⟩ := hex
      exact List.any_eq_true.mpr ⟨d, hd, by simp [hdn]⟩
    have hc : categorize_room r.name ∈ ds.map Department.name := by
      obtain ⟨d, hd, hdn⟩ := hex
      exact hdn ▸ List.mem_map_of_mem Department.name hd
    rw [addRoom, if_pos hany]
    refine ⟨?_, ?_, ?_, ?_, ?_⟩
    · rw [map_name_update]; exact hnd
    · rw [sum_map_update Department.total_area (r.width * r.depth) r _
        (fun d => by simp [pushRoom]) ds hnd hc, hsum]
      simp
    · rw [sum_map_update (fun d => d.programs.length) 1 r _
        (fun d => by simp [pushRoom]) ds hnd hc, hlen]
      simp
    · intro d2 hd2
      obtain ⟨d, hd, hupd⟩ := List.mem_map.mp hd2
      by_cases hdc : d.name = categorize_room r.name
      · have hd2e : d2 = pushRoom d r := by rw [← hupd]; simp [hdc]
        subst hd2e
        rw [List.filter_append, pushRoom_name]
        have hpr : (List.filter
            (fun r2 => categorize_room r2.name == d.name) [r]) = [r] := by
          simp [List.filter_cons, hdc]
        rw [hpr, List.map_append]
        have hlhs : (pushRoom d r).programs.map Program.name =
            d.programs.map Program.name ++ [r.name] := by
          simp [pushRoom, mkProgram]
        rw [hlhs, hprog d hd]
        simp
      · have hd2e : d2 = d := by rw [← hupd]; simp [hdc]
        subst hd2e
        rw [List.filter_append]
        have hpr : (List.filter
            (fun r2 => categorize_room r2.name == d2.name) [r]) = [] := by
          simp only [List.filter_cons, List.filter_nil, beq_iff_eq]
          rw [if_neg (fun hcontra => hdc hcontra.symm)]
        rw [hpr, List.append_nil]
        exact hprog d2 hd
    · intro r2 hr2
      rw [map_name_update]
      rcases List.mem_append.mp hr2 with h2 | h2
      · exact hcat r2 h2
      · have : r2 = r := by simpa using h2
        subst this
        exact hc
  case neg =>
    have hnc : categorize_room r.name ∉ ds.map Department.name := by
      intro hmem
      obtain ⟨d, hd, hdn⟩ := List.mem_map.mp hmem
      exact hex ⟨d, hd, hdn⟩
    have hany : ds.any (fun d => d.name == categorize_room r.name) = false := by
      rw [List.any_eq_false]
      intro d hd hcontra
      exact hex ⟨d, hd, by simpa using hcontra⟩
    rw [addRoom, hany]
    simp only [Bool.false_eq_true, if_false]
    refine ⟨?_, ?_, ?_, ?_, ?_⟩
    · rw [List.map_append, List.nodup_append]
      refine ⟨hnd, by simp, ?_⟩
      intro a ha hb
      have : a = categorize_room r.name := by simpa [freshDept] using hb
      exact hnc (this ▸ ha)
    · rw [List.map_append, List.sum_append, hsum]
      simp [freshDept]
    · rw [List.map_append, List.sum_append, hlen]
      simp [freshDept]
    · intro d2 hd2
      rcases List.mem_append.mp hd2 with hd | hd
      · rw [List.filter_append]
        have hdn : d2.name ∈ ds.map Department.name := List.mem_map_of_mem Department.name hd
        have hpr : (List.filter
            (fun r2 => categorize_room r2.name == d2.name) [r]) = [] := by
          simp only [List.filter_cons, List.filter_nil, beq_iff_eq]
          rw [if_neg (fun hcontra : categorize_room r.name = d2.name =>
            hnc (by rw [hcontra]; exact hdn))]
        rw [hpr, List.append_nil]
        exact hprog d2 hd
      · have hd2e : d2 = freshDept r := by simpa using hd
        subst hd2e
        rw [List.filter_append]
        have hp1 : (List.filter
            (fun r2 => categorize_room r2.name == (freshDept r).name) processed) = [] := by
          rw [List.filter_eq_nil_iff]
          intro r2 hr2 hcontra
          have : categorize_room r2.name = categorize_room r.name := by
            simpa [freshDept] using hcontra
          exact hnc (this ▸ hcat r2 hr2)
        have hp2 : (List.filter
            (fun r2 => categorize_room r2.name == (freshDept r).name) [r]) = [r] := by
          simp [freshDept]
        rw [hp1, hp2, List.nil_append]
        simp [freshDept, mkProgram]
    · intro r2 hr2
      rw [List.map_append]
      rcases List.mem_append.mp hr2 with h2 | h2
      · exact List.mem_append_left _ (hcat r2 h2)
      · have : r2 = r := by simpa using h2
        subst this
        apply List.mem_append_right
        simp [freshDept]

theorem foldl_inv (rooms : List GRoom) :
    ∀ ds processed, Inv ds processed →
      Inv (rooms.foldl addRoom ds) (processed ++ rooms) := by
  induction rooms with
  | nil => intro ds processed h; simpa using h
  | cons r rest ih =>
      intro ds processed h
      have h2 := ih (addRoom ds r) (processed ++ [r]) (addRoom_inv ds processed r h)
      simpa using h2

theorem get_department_data_inv (rooms : List GRoom) :
    Inv (get_department_data rooms) rooms := by
  have h0 : Inv [] [] := ⟨by simp, by simp, by simp, by simp, by simp⟩
  simpa using foldl_inv rooms [] [] h0

/-- **C5.** Every input room appears in exactly one department's program
list (counted via the room's name, which programs inherit), and the
departments' `total_area` values sum to the sum over all rooms of
`width * depth`. The program-count bookkeeping
(`Σ |programs| = |rooms|`) is included, so equally-named duplicate rooms
are all accounted for. -/
theorem department_partition_c5 (rooms : List GRoom) :
    ((get_department_data rooms).map Department.total_area).sum =
      (rooms.map (fun r => r.width * r.depth)).sum ∧
    ((get_department_data rooms).map (fun d => d.programs.length)).sum =
      rooms.length ∧
    ∀ r ∈ rooms,
      (get_department_data rooms).countP
        (fun d => d.programs.any (fun p => p.name == r.name)) = 1 := by
  obtain ⟨hnd, hsum, hlen, hprog, hcat⟩ := get_department_data_inv rooms
  refine ⟨hsum, hlen, ?_⟩
  intro r hr
  have hpt : ∀ d ∈ get_department_data rooms,
      (d.programs.any (fun p => p.name == r.name)) = true ↔
        (d.name == categorize_room r.name) = true := by
    intro d hd
    constructor
    · intro hany
      obtain ⟨p, hp, hpn⟩ := List.any_eq_true.mp hany
      have hpname : p.name = r.name := by simpa using hpn
      have hmem : p.name ∈ d.programs.map Program.name :=
        List.mem_map_of_mem Program.name hp
      rw [hprog d hd] at hmem
      obtain ⟨r2, hr2, hr2n⟩ := List.mem_map.mp hmem
      have hr2c : categorize_room r2.name = d.name := by
        simpa using (List.mem_filter.mp hr2).2
      have : categorize_room r.name = d.name := by
        rw [← hpname, ← hr2n]; exact hr2c
      simp [this.symm]
    · intro hdc
      have hdc2 : d.name = categorize_room r.name := by simpa using hdc
      have hmem : r.name ∈ d.programs.map Program.name := by
        rw [hprog d hd]
        refine List.mem_map.mpr ⟨r, List.mem_filter.mpr ⟨hr, ?_⟩, rfl⟩
        simp [hdc2]
      obtain ⟨p, hp, hpn⟩ := List.mem_map.mp hmem
      exact List.any_eq_true.mpr ⟨p, hp, by simp [hpn]⟩
  rw [List.countP_congr hpt]
  have hcount : (get_department_data rooms).countP
      (fun d => d.name == categorize_room r.name) =
        ((get_department_data rooms).map Department.name).count
          (categorize_room r.name) := by
    rw [List.count, List.countP_map]
    rfl
  rw [hcount]
  exact List.count_eq_one_of_mem hnd (hcat r hr)

/-- The spec's two-room scenario: an Emergency Room and a Reception. -/
def demoRooms : List GRoom :=
  [ { name := "Emergency Room", width := 10, depth := 10 },
    { name := "Reception", width := 5, depth := 4 } ]

/-- Witness for `department_partition_c5` on `demoRooms`. -/
theorem department_partition_c5_witness :
    ((get_department_data demoRooms).map Department.total_area).sum =
      (demoRooms.map (fun r => r.width * r.depth)).sum ∧
    (get_department_data demoRooms).countP
      (fun d => d.programs.any (fun p => p.name == "Emergency Room")) = 1 := by
  obtain ⟨h1, _, h3⟩ := department_partition_c5 demoRooms
  exact ⟨h1, h3 { name := "Emergency Room", width := 10, depth := 10 }
    (by simp [demoRooms])⟩

end GeminiJsonReader

namespace Dynamo

/-- A program entry of a department in the design parameters
(every field is read via `.get` with a default). -/
structure ProgIn where
  name : Option String := none
  quantity : Option ℚ := none
  area : Option ℚ := none
  adjacency_weight : Option ℚ := none
  width : Option ℚ := none
  depth : Option ℚ := none
  height : Option ℚ := none
  position : Option App.Pos := none
  shape : Option String := none
  features : List String := []
  deriving Repr, DecidableEq

/-- A department entry of the design parameters. -/
structure DeptIn where
  name : Option String := none
  programs : Option (List ProgIn) := none
  total_area : Option ℚ := none
  floor : Option Int := none
  deriving Repr, DecidableEq

/-- The `design_params` mapping of `DynamoSpaceplanningIntegrator`
(the keys the layout pass reads). -/
structure DesignParams where
  site_outline : Option (List (ℚ × ℚ)) := none
  departments : List DeptIn := []
  kpu_depths : Option (List ℚ) := none
  kpu_widths : Option (List ℚ) := none
  circulation_factor : Option ℚ := none
  deriving Repr, DecidableEq

/-- A program record of the department data stack
(`create_department_data_stack` loop body). `ProgramPolygon` is the key
added later by `place_programs_in_departments`. -/
structure ProgramData where
  ProgId : Nat
  ProgramName : String
  DeptName : String
  Quantity : ℚ
  UnitArea : ℚ
  AdjacencyWeight : ℚ
  Width : ℚ
  Depth : ℚ
  Height : ℚ
  Position : App.Pos
  Shape : String
  Features : List String
  ProgramPolygon : Option (List (ℚ × ℚ)) := none
  deriving Repr, DecidableEq

/-- A department record of the department data stack. `DeptPolygon` and
`DeptAreaProvided` are the keys added later by
`place_departments_on_site`. -/
structure DeptData where
  DeptName : String
  ProgramsInDept : List ProgramData
  DeptAreaNeeded : ℚ
  DeptAreaProportionNeeded : ℚ
  CirculationFactor : ℚ
  Floor : Int
  DeptPolygon : Option (List (ℚ × ℚ)) := none
  DeptAreaProvided : Option ℚ := none
  deriving Repr, DecidableEq

/-- The program record built for the `i`-th program of a department. -/
def mkProgramData (i : Nat) (deptName : String) (p : ProgIn) : ProgramData :=
  { ProgId := i + 1
    ProgramName := p.name.getD "Unknown"
    DeptName := deptName
    Quantity := p.quantity.getD 1
    UnitArea := p.area.getD 100
    AdjacencyWeight := p.adjacency_weight.getD 1.0
    Width := p.width.getD 10
    Depth := p.depth.getD 10
    Height := p.height.getD 3.0
    Position := p.position.getD ⟨0, 0, 0⟩
    Shape := p.shape.getD "rectangle"
    Features := p.features }

/-- `DynamoSpaceplanningIntegrator.create_department_data_stack`: build one
record per department, then compute each `DeptAreaProportionNeeded` as
`DeptAreaNeeded / total_area` when the total is positive, else `0.0`. -/
def create_department_data_stack (params : DesignParams) : List DeptData :=
  let stack0 := params.departments.map (fun dept =>
    { DeptName := dept.name.getD "Unknown"
      ProgramsInDept := (dept.programs.getD []).enum.map
        (fun ip => mkProgramData ip.1 (dept.name.getD "Unknown") ip.2)
      DeptAreaNeeded := dept.total_area.getD 100
      DeptAreaProportionNeeded := 0.0
      CirculationFactor := params.circulation_factor.getD 1.5
      Floor := dept.floor.getD 1 : DeptData })
  let total_area := (params.departments.map (fun d => d.total_area.getD 100)).sum
  stack0.map (fun d =>
    { d with DeptAreaProportionNeeded :=
        if 0 < total_area then d.DeptAreaNeeded / total_area else 0.0 })

/-- `get_kpu_dimensions`: `(depths, widths)` with their defaults. -/
def get_kpu_dimensions (params : DesignParams) : List ℚ × List ℚ :=
  (params.kpu_depths.getD [15.0, 20.0, 25.0],
   params.kpu_widths.getD [10.0, 15.0, 20.0])

/-- `get_site_outline_points` with its default rectangle. -/
def get_site_outline_points (params : DesignParams) : List (ℚ × ℚ) :=
  params.site_outline.getD [(0, 0), (100, 0), (100, 100), (0, 100)]

/-- The placement loop of `place_departments_on_site`. `i` is the index,
`(cx, cy)` the running cursor. Python's `pool[i % len(pool)]` raises
`ZeroDivisionError` on an empty pool, modelled by `none` (in Lean
`i % 0 = i` and `[].get? i = none`, so the lookup fails exactly when the
pool is empty). -/
def placeDeptLoop (kpu_widths kpu_depths : List ℚ) :
    Nat → ℚ → ℚ → List DeptData → Option (List DeptData)
  | _, _, _, [] => some []
  | i, cx, cy, dept :: rest =>
    match kpu_widths.get? (i % kpu_widths.length),
          kpu_depths.get? (i % kpu_depths.length) with
    | some w, some dp =>
        let placed := { dept with
          DeptPolygon := some [(cx, cy), (cx + w, cy), (cx + w, cy + dp), (cx, cy + dp)]
          DeptAreaProvided := some (w * dp) }
        let nx := cx + w + 5
        if nx > 80 then
          (placeDeptLoop kpu_widths kpu_depths (i + 1) 10 (cy + dp + 5) rest).map
            (fun ds => placed :: ds)
        else
          (placeDeptLoop kpu_widths kpu_depths (i + 1) nx cy rest).map
            (fun ds => placed :: ds)
    | _, _ => none

/-- `DynamoSpaceplanningIntegrator.place_departments_on_site`. The
`design_seed` parameter is accepted and never read, as in the source. -/
def place_departments_on_site (params : DesignParams) (design_seed : Int) :
    Option (List DeptData) :=
  let dept_data_stack := create_department_data_stack params
  let kpu := get_kpu_dimensions params
  placeDeptLoop kpu.2 kpu.1 0 10 10 dept_data_stack

/-- The mock polygon (`MockPolygon2d`) used when the Dynamo geometry
library is unavailable stores only its point list; it has no `Width`
attribute, so reading `polygon.Width` raises `AttributeError`, modelled
as `none`. -/
def polygonWidth (_poly : List (ℚ × ℚ)) : Option ℚ := none

/-- The per-department program placement loop of
`place_programs_in_departments`: place each program at the running
cursor, then advance and consult `dept_polygon.Width` for row wrapping
(which fails on the mock polygon). -/
def placeProgLoop (deptPoly : List (ℚ × ℚ)) :
    ℚ → ℚ → List ProgramData → Option (List ProgramData)
  | _, _, [] => some []
  | cx, cy, program :: rest =>
    let width := program.Width
    let depth := program.Depth
    let poly := [(cx, cy), (cx + width, cy), (cx + width, cy + depth), (cx, cy + depth)]
    let placed := { program with ProgramPolygon := some poly }
    match polygonWidth deptPoly with
    | none => none
    | some pw =>
        if cx + width + 2 > pw then
          (placeProgLoop deptPoly 0 (cy + depth + 2) rest).map
            (fun ps => placed :: ps)
        else
          (placeProgLoop deptPoly (cx + width + 2) cy rest).map
            (fun ps => placed :: ps)

/-- The department loop of `place_programs_in_departments`: departments
without a `DeptPolygon` are skipped unchanged. -/
def placeProgsGo : List DeptData → Option (List DeptData)
  | [] => some []
  | dept :: rest =>
    match dept.DeptPolygon with
    | none => (placeProgsGo rest).map (fun ds => dept :: ds)
    | some poly =>
        match placeProgLoop poly 0 0 dept.ProgramsInDept with
        | none => none
        | some progs =>
            (placeProgsGo rest).map
              (fun ds => { dept with ProgramsInDept := progs } :: ds)

/-- `DynamoSpaceplanningIntegrator.place_programs_in_departments`. The
`design_seed` parameter is accepted and never read, as in the source. -/
def place_programs_in_departments (placed_departments : List DeptData)
    (design_seed : Int) : Option (List DeptData) :=
  placeProgsGo placed_departments

/-- `create_circulation_network` in this repository's configuration:
`DYNAMO_CORE_AVAILABLE` is false, so the function returns the empty
list of circulation lines. -/
def create_circulation_network (_placed : List DeptData) :
    List ((ℚ × ℚ) × (ℚ × ℚ)) := []

/-- `generate_3d_geometry` in this repository's configuration:
`DYNAMO_CORE_AVAILABLE` is false, so no solids are produced. -/
def generate_3d_geometry (_placed : List DeptData) :
    List (List (ℚ × ℚ) × ℚ) := []

/-- The result record of `run_complete_spaceplanning`. -/
structure SpaceplanResult where
  success : Bool
  departments : List DeptData
  circulation : List ((ℚ × ℚ) × (ℚ × ℚ))
  geometry_3d : List (List (ℚ × ℚ) × ℚ)
  site_outline : Option (List (ℚ × ℚ))
  design_parameters : Option DesignParams
  deriving Repr, DecidableEq

/-- The record returned from the `except` branch of
`run_complete_spaceplanning` (empty sections, `success: False`). -/
def failResult : SpaceplanResult :=
  { success := false, departments := [], circulation := [], geometry_3d := []
    site_outline := none, design_parameters := some {} }

/-- `DynamoSpaceplanningIntegrator.run_complete_spaceplanning`: run the
two placement passes, then circulation and 3D geometry; any exception
from the passes is caught and turned into `failResult`. -/
def run_complete_spaceplanning (params : DesignParams) (design_seed : Int) :
    SpaceplanResult :=
  match place_departments_on_site params design_seed with
  | none => failResult
  | some placed =>
    match place_programs_in_departments placed design_seed with
    | none => failResult
    | some placed2 =>
        { success := true
          departments := placed2
          circulation := create_circulation_network placed2
          geometry_3d := generate_3d_geometry placed2
          site_outline := some (get_site_outline_points params)
          design_parameters := some params }

/-! ### C6: geometry of the department packing -/

/-- An axis-aligned bounding box. -/
structure BBox where
  minX : ℚ
  minY : ℚ
  maxX : ℚ
  maxY : ℚ
  deriving Repr, DecidableEq

/-- Bounding box of a non-empty point list (seeded with the first point). -/
def bboxOf (p0 : ℚ × ℚ) (ps : List (ℚ × ℚ)) : BBox :=
  ps.foldl
    (fun b q => ⟨min b.minX q.1, min b.minY q.2, max b.maxX q.1, max b.maxY q.2⟩)
    ⟨p0.1, p0.2, p0.1, p0.2⟩

/-- Bounding box of a placed department's footprint polygon, when present. -/
def deptBBox (d : DeptData) : Option BBox :=
  match d.DeptPolygon with
  | none => none
  | some [] => none
  | some (p :: ps) => some (bboxOf p ps)

/-- The two boxes are separated by at least `gap` along some axis. -/
def bboxSeparated (gap : ℚ) (b1 b2 : BBox) : Prop :=
  b1.maxX + gap ≤ b2.minX ∨ b2.maxX + gap ≤ b1.minX ∨
  b1.maxY + gap ≤ b2.minY ∨ b2.maxY + gap ≤ b1.minY

/-- The boxes share interior area. -/
def bboxOverlap (b1 b2 : BBox) : Prop :=
  b1.minX < b2.maxX ∧ b2.minX < b1.maxX ∧ b1.minY < b2.maxY ∧ b2.minY < b1.maxY

theorem bboxSeparated_not_overlap {gap : ℚ} {b1 b2 : BBox} (hg : 0 ≤ gap)
    (h : bboxSeparated gap b1 b2) : ¬ bboxOverlap b1 b2 := by
  rcases h with h | h | h | h <;> rintro ⟨o1, o2, o3, o4⟩ <;> linarith

/-- `d` carries the rectangular footprint of width `w` and depth `dp` at
origin `o`, together with the provided area `w * dp`. -/
def RectAt (d : DeptData) (w dp : ℚ) (o : ℚ × ℚ) : Prop :=
  d.DeptPolygon =
    some [o, (o.1 + w, o.2), (o.1 + w, o.2 + dp), (o.1, o.2 + dp)] ∧
  d.DeptAreaProvided = some (w * dp)

/-- `pool[i % len(pool)]` for a non-empty pool. -/
def cyc (l : List ℚ) (i : Nat) : ℚ := l.getD (i % l.length) 0

theorem cyc_get? (l : List ℚ) (hl : l ≠ []) (i : Nat) :
    l.get? (i % l.length) = some (cyc l i) := by
  have hi : i % l.length < l.length := Nat.mod_lt _ (List.length_pos.mpr hl)
  rw [cyc, List.getD_eq_get?, List.get?_eq_get hi]
  rfl

theorem cyc_mem (l : List ℚ) (hl : l ≠ []) (i : Nat) : cyc l i ∈ l := by
  have hi : i % l.length < l.length := Nat.mod_lt _ (List.length_pos.mpr hl)
  rw [cyc, List.getD_eq_get?, List.get?_eq_get hi]
  exact List.get_mem l _ hi

theorem bboxOf_rect (cx cy w dp : ℚ) (hw : 0 ≤ w) (hd : 0 ≤ dp) :
    bboxOf (cx, cy) [(cx + w, cy), (cx + w, cy + dp), (cx, cy + dp)] =
      ⟨cx, cy, cx + w, cy + dp⟩ := by
  have h1 : cx ≤ cx + w := by linarith
  have h2 : cy ≤ cy + dp := by linarith
  simp [bboxOf, min_eq_left h1, max_eq_right h1, min_eq_left h2, max_eq_right h2,
    max_eq_left h1, max_eq_left h2, min_self, max_self]

theorem rectAt_bbox {d : DeptData} {w dp : ℚ} {o : ℚ × ℚ}
    (h : RectAt d w dp o) (hw : 0 ≤ w) (hd : 0 ≤ dp) :
    deptBBox d = some ⟨o.1, o.2, o.1 + w, o.2 + dp⟩ := by
  rw [deptBBox, h.1]
  have := bboxOf_rect o.1 o.2 w dp hw hd
  simp only [← this]

/-- Full specification of the placement loop: it succeeds for non-empty
pools, places every department in order as a rectangle with the cyclic
pool dimensions, the head sits at the incoming cursor, and consecutive
footprints are separated by at least the gap of 5. -/
theorem placeDeptLoop_spec (kw kd : List ℚ) (hkw : kw ≠ []) (hkd : kd ≠ [])
    (hkwnn : ∀ w ∈ kw, 0 ≤ w) (hkdnn : ∀ x ∈ kd, 0 ≤ x) :
    ∀ (depts : List DeptData) (i : Nat) (cx cy : ℚ),
      ∃ placed, placeDeptLoop kw kd i cx cy depts = some placed ∧
        placed.length = depts.length ∧
        (∀ h0 : 0 < placed.length,
          RectAt (placed.get ⟨0, h0⟩) (cyc kw i) (cyc kd i) (cx, cy)) ∧
        (∀ k (hk : k < placed.length),
          ∃ o, RectAt (placed.get ⟨k, hk⟩) (cyc kw (i + k)) (cyc kd (i + k)) o) ∧
        (∀ k (hk : k + 1 < placed.length),
          ∃ b1 b2, deptBBox (placed.get ⟨k, Nat.lt_of_succ_lt hk⟩) = some b1 ∧
            deptBBox (placed.get ⟨k + 1, hk⟩) = some b2 ∧
            bboxSeparated 5 b1 b2) := by
  intro depts
  induction depts with
  | nil =>
      intro i cx cy
      exact ⟨[], rfl, rfl, fun h0 => absurd h0 (by simp),
        fun k hk => absurd hk (by simp), fun k hk => absurd hk (by simp)⟩
  | cons dept rest ih =>
      intro i cx cy
      have hw := cyc_get? kw hkw i
      have hd := cyc_get? kd hkd i
      have hwnn : 0 ≤ cyc kw i := hkwnn _ (cyc_mem kw hkw i)
      have hdnn : 0 ≤ cyc kd i := hkdnn _ (cyc_mem kd hkd i)
      set w := cyc kw i with hwdef
      set dp := cyc kd i with hdpdef
      set placedHead : DeptData := { dept with
        DeptPolygon := some [(cx, cy), (cx + w, cy), (cx + w, cy + dp), (cx, cy + dp)]
        DeptAreaProvided := some (w * dp) } with hph
      have hnext : ∃ cx2 cy2,
          placeDeptLoop kw kd i cx cy (dept :: rest) =
            (placeDeptLoop kw kd (i + 1) cx2 cy2 rest).map
              (fun ds => placedHead :: ds) ∧
          (cx + w + 5 ≤ cx2 ∨ cy + dp + 5 ≤ cy2) := by
        by_cases hwrap : cx + w + 5 > 80
        · refine ⟨10, cy + dp + 5, ?_, Or.inr le_rfl⟩
          simp only [placeDeptLoop, hw, hd]
          rw [if_pos hwrap]
        · refine ⟨cx + w + 5, cy, ?_, Or.inl le_rfl⟩
          simp only [placeDeptLoop, hw, hd]
          rw [if_neg hwrap]
      obtain ⟨cx2, cy2, heq, hsepcase⟩ := hnext
      obtain ⟨placedR, hR, hlenR, hheadR, hallR, hsepR⟩ := ih (i + 1) cx2 cy2
      refine ⟨placedHead :: placedR, ?_, ?_, ?_, ?_, ?_⟩
      · rw [heq, hR]
        rfl
      · simp [hlenR]
      · intro h0
        exact ⟨rfl, rfl⟩
      · intro k hk
        cases k with
        | zero =>
            exact ⟨(cx, cy), ⟨rfl, rfl⟩⟩
        | succ k =>
            have hk2 : k < placedR.length := by
              simpa using Nat.lt_of_succ_lt_succ hk
            obtain ⟨o, ho⟩ := hallR k hk2
            refine ⟨o, ?_⟩
            rw [List.get_cons_succ]
            have hikw : i + 1 + k = i + (k + 1) := by omega
            rw [hikw] at ho
            exact ho
      · intro k hk
        cases k with
        | zero =>
            have h0R : 0 < placedR.length := by simpa using Nat.lt_of_succ_lt_succ hk
            have hhead := hheadR h0R
            have hw2nn : 0 ≤ cyc kw (i + 1) := hkwnn _ (cyc_mem kw hkw (i + 1))
            have hd2nn : 0 ≤ cyc kd (i + 1) := hkdnn _ (cyc_mem kd hkd (i + 1))
            refine ⟨⟨cx, cy, cx + w, cy + dp⟩,
              ⟨cx2, cy2, cx2 + cyc kw (i + 1), cy2 + cyc kd (i + 1)⟩, ?_, ?_, ?_⟩
            · show deptBBox placedHead = _
              exact rectAt_bbox (⟨rfl, rfl⟩ : RectAt placedHead w dp (cx, cy)) hwnn hdnn
            · rw [List.get_cons_succ]
              exact rectAt_bbox hhead hw2nn hd2nn
            · rcases hsepcase with hcase | hcase
              · exact Or.inl hcase
              · exact Or.inr (Or.inr (Or.inl hcase))
        | succ k =>
            have hk2 : k + 1 < placedR.length := by
              simpa using Nat.lt_of_succ_lt_succ hk
            obtain ⟨b1, b2, hb1, hb2, hsep⟩ := hsepR k hk2
            refine ⟨b1, b2, ?_, ?_, hsep⟩
            · rw [List.get_cons_succ]
              exact hb1
            · rw [List.get_cons_succ]
              exact hb2

/-- **C6.** For non-empty planning-unit pools (of non-negative
dimensions), the packer succeeds, places one footprint per department of
the stack in list order — the `k`-th being a rectangle of width
`widths[k mod len(widths)]` and depth `depths[k mod len(depths)]` — and
the bounding boxes of each pair of adjacently-placed footprints are
separated by at least the gap margin of 5, hence do not overlap. -/
theorem packing_nonoverlap_c6 (params : DesignParams) (design_seed : Int)
    (hkw : (get_kpu_dimensions params).2 ≠ [])
    (hkd : (get_kpu_dimensions params).1 ≠ [])
    (hkwnn : ∀ w ∈ (get_kpu_dimensions params).2, 0 ≤ w)
    (hkdnn : ∀ x ∈ (get_kpu_dimensions params).1, 0 ≤ x) :
    ∃ placed, place_departments_on_site params design_seed = some placed ∧
      placed.length = (create_department_data_stack params).length ∧
      (∀ k (hk : k < placed.length), ∃ o,
        RectAt (placed.get ⟨k, hk⟩)
          (cyc (get_kpu_dimensions params).2 k)
          (cyc (get_kpu_dimensions params).1 k) o) ∧
      (∀ k (hk : k + 1 < placed.length), ∃ b1 b2,
        deptBBox (placed.get ⟨k, Nat.lt_of_succ_lt hk⟩) = some b1 ∧
        deptBBox (placed.get ⟨k + 1, hk⟩) = some b2 ∧
        bboxSeparated 5 b1 b2 ∧ ¬ bboxOverlap b1 b2) := by
  obtain ⟨placed, hp, hlen, _, hall, hsep⟩ :=
    placeDeptLoop_spec (get_kpu_dimensions params).2 (get_kpu_dimensions params).1
      hkw hkd hkwnn hkdnn (create_department_data_stack params) 0 10 10
  refine ⟨placed, hp, hlen, ?_, ?_⟩
  · intro k hk
    have := hall k hk
    simpa using this
  · intro k hk
    obtain ⟨b1, b2, hb1, hb2, hs⟩ := hsep k hk
    exact ⟨b1, b2, hb1, hb2, hs, bboxSeparated_not_overlap (by norm_num) hs⟩

/-- Five nameless departments: enough to exercise a row wrap of the cursor. -/
def wrapParams : DesignParams :=
  { departments :=
      [ { name := some "D1" }, { name := some "D2" }, { name := some "D3" },
        { name := some "D4" }, { name := some "D5" } ] }

/-- Witness for `packing_nonoverlap_c6` on `wrapParams` (default pools
`[10, 15, 20]` × `[15, 20, 25]`, five departments). -/
theorem packing_nonoverlap_c6_witness :
    ∃ placed, place_departments_on_site wrapParams 50 = some placed ∧
      placed.length = (create_department_data_stack wrapParams).length ∧
      (∀ k (hk : k < placed.length), ∃ o,
        RectAt (placed.get ⟨k, hk⟩)
          (cyc (get_kpu_dimensions wrapParams).2 k)
          (cyc (get_kpu_dimensions wrapParams).1 k) o) ∧
      (∀ k (hk : k + 1 < placed.length), ∃ b1 b2,
        deptBBox (placed.get ⟨k, Nat.lt_of_succ_lt hk⟩) = some b1 ∧
        deptBBox (placed.get ⟨k + 1, hk⟩) = some b2 ∧
        bboxSeparated 5 b1 b2 ∧ ¬ bboxOverlap b1 b2) := by
  refine packing_nonoverlap_c6 wrapParams 50 ?_ ?_ ?_ ?_
  · simp [get_kpu_dimensions, wrapParams]
  · simp [get_kpu_dimensions, wrapParams]
  · intro w hw
    simp only [get_kpu_dimensions, wrapParams, Option.getD_none] at hw
    fin_cases hw <;> norm_num
  · intro x hx
    simp only [get_kpu_dimensions, wrapParams, Option.getD_none] at hx
    fin_cases hx <;> norm_num

/-! ### C9: the proportion invariant of the department data stack -/

theorem sum_map_div (l : List ℚ) (c : ℚ) :
    (l.map (fun x => x / c)).sum = l.sum / c := by
  induction l with
  | nil => simp
  | cons x xs ih => simp [ih, add_div]

theorem stack_proportions (params : DesignParams) :
    (create_department_data_stack params).map DeptData.DeptAreaProportionNeeded =
      params.departments.map (fun dept =>
        if 0 < (params.departments.map (fun d => d.total_area.getD 100)).sum then
          (dept.total_area.getD 100) /
            (params.departments.map (fun d => d.total_area.getD 100)).sum
        else 0.0) := by
  simp only [create_department_data_stack, List.map_map]
  rfl

/-- **C9.** In the department data stack, the `DeptAreaProportionNeeded`
values sum to exactly 1 whenever the total needed area is positive
(exact over `ℚ`, hence within any floating-point tolerance), and every
proportion is 0 when the total needed area is 0. -/
theorem proportion_invariant_c9 (params : DesignParams) :
    (0 < (params.departments.map (fun d => d.total_area.getD 100)).sum →
      ((create_department_data_stack params).map
        DeptData.DeptAreaProportionNeeded).sum = 1) ∧
    ((params.departments.map (fun d => d.total_area.getD 100)).sum = 0 →
      ∀ d ∈ create_department_data_stack params,
        d.DeptAreaProportionNeeded = 0) := by
  constructor
  · intro hpos
    rw [stack_proportions]
    simp only [hpos, if_true]
    have hmm : params.departments.map (fun dept =>
        (dept.total_area.getD 100) /
          (params.departments.map (fun d => d.total_area.getD 100)).sum) =
        (params.departments.map (fun d => d.total_area.getD 100)).map
          (fun x => x / (params.departments.map (fun d => d.total_area.getD 100)).sum) := by
      rw [List.map_map]
      rfl
    rw [hmm, sum_map_div, div_self (ne_of_gt hpos)]
  · intro h0 d hd
    have hd2 : d.DeptAreaProportionNeeded ∈
        (create_department_data_stack params).map DeptData.DeptAreaProportionNeeded :=
      List.mem_map_of_mem _ hd
    rw [stack_proportions] at hd2
    obtain ⟨dept, _, hval⟩ := List.mem_map.mp hd2
    rw [← hval, h0]
    norm_num

/-- Demo parameters: two departments with areas 60 and 40. -/
def demoParams : DesignParams :=
  { departments :=
      [ { name := some "Emergency Department", total_area := some 60 },
        { name := some "Administration", total_area := some 40 } ] }

/-- Parameters whose departments all carry zero needed area. -/
def zeroParams : DesignParams :=
  { departments := [ { name := some "Empty Wing", total_area := some 0 } ] }

/-- Witness for `proportion_invariant_c9`: positive total on `demoParams`,
zero total on `zeroParams`. -/
theorem proportion_invariant_c9_witness :
    ((create_department_data_stack demoParams).map
      DeptData.DeptAreaProportionNeeded).sum = 1 ∧
    (∀ d ∈ create_department_data_stack zeroParams,
      d.DeptAreaProportionNeeded = 0) := by
  constructor
  · apply (proportion_invariant_c9 demoParams).1
    norm_num [demoParams]
  · apply (proportion_invariant_c9 zeroParams).2
    norm_num [zeroParams]

/-! ### C10: the design seed has no influence -/

/-- **C10.** For any design parameters, the two placement passes and the
complete spaceplanning run produce identical results for any two values
of the `design_seed` argument: the seed is accepted and never read. -/
theorem seed_independence_c10 :
    (∀ (params : DesignParams) (s1 s2 : Int),
      place_departments_on_site params s1 = place_departments_on_site params s2) ∧
    (∀ (placed : List DeptData) (s1 s2 : Int),
      place_programs_in_departments placed s1 = place_programs_in_departments placed s2) ∧
    (∀ (params : DesignParams) (s1 s2 : Int),
      run_complete_spaceplanning params s1 = run_complete_spaceplanning params s2) :=
  ⟨fun _ _ _ => rfl, fun _ _ _ => rfl, fun _ _ _ => rfl⟩

/-! ### C7: degenerate layout inputs -/

/-- The claim of C7 is false as stated: with at least one department and an
empty planning-unit pool, `place_departments_on_site` evaluates
`kpu_widths[i % len(kpu_widths)]`, a `ZeroDivisionError` (modelled `none`),
rather than returning an empty well-formed placement. -/
theorem packer_degenerate_c7_counterexample :
    place_departments_on_site
      { departments := [ { name := some "A" } ],
        kpu_widths := some [], kpu_depths := some [] } 50 = none := rfl

/-- **C7 (amended).** Zero departments give an empty placement; program
placement over zero departments, or over departments whose program lists
are all empty, returns the well-formed input unchanged; but with at least
one department and an empty planning-unit width pool, the packer raises
(`none`), and `run_complete_spaceplanning` catches this, returning the
empty failure result. -/
theorem packer_degenerate_c7 :
    (∀ (params : DesignParams) (seed : Int), params.departments = [] →
      place_departments_on_site params seed = some []) ∧
    (∀ seed : Int, place_programs_in_departments [] seed = some []) ∧
    (∀ (depts : List DeptData) (seed : Int),
      (∀ d ∈ depts, d.ProgramsInDept = []) →
      place_programs_in_departments depts seed = some depts) ∧
    (∀ (params : DesignParams) (seed : Int),
      params.departments ≠ [] → params.kpu_widths = some [] →
      place_departments_on_site params seed = none ∧
      run_complete_spaceplanning params seed = failResult) := by
  refine ⟨?_, ?_, ?_, ?_⟩
  · intro params seed h
    simp [place_departments_on_site, create_department_data_stack, h, placeDeptLoop]
  · intro seed
    rfl
  · intro depts seed h
    show placeProgsGo depts = some depts
    induction depts with
    | nil => rfl
    | cons dept rest ih =>
        have hd : dept.ProgramsInDept = [] := h dept (by simp)
        have hr : placeProgsGo rest = some rest :=
          ih (fun d hdm => h d (by simp [hdm]))
        have hdept : ∀ poly, dept.DeptPolygon = some poly →
            placeProgLoop poly 0 0 dept.ProgramsInDept = some [] := by
          intro poly _
          rw [hd]
          rfl
        rcases hpoly : dept.DeptPolygon with _ | poly
        · simp [placeProgsGo, hpoly, hr]
        · simp [placeProgsGo, hpoly, hdept poly hpoly, hr]
          rw [← hd, ← hpoly]
  · intro params seed hne hkw
    obtain ⟨d0, rest, hdep⟩ := List.exists_cons_of_ne_nil hne
    have hplace : place_departments_on_site params seed = none := by
      simp [place_departments_on_site, create_department_data_stack, hdep,
        get_kpu_dimensions, hkw, placeDeptLoop]
    refine ⟨hplace, ?_⟩
    simp [run_complete_spaceplanning, hplace]

/-- Witness for `packer_degenerate_c7`: the empty parameter set and a
one-department stack with empty programs. -/
theorem packer_degenerate_c7_witness :
    place_departments_on_site {} 50 = some [] ∧
    place_programs_in_departments [] 10 = some [] ∧
    place_programs_in_departments
      [ { DeptName := "A", ProgramsInDept := [], DeptAreaNeeded := 100,
          DeptAreaProportionNeeded := 1, CirculationFactor := 1.5, Floor := 1,
          DeptPolygon := some [(10, 10), (20, 10), (20, 25), (10, 25)] } ] 10 =
      some
        [ { DeptName := "A", ProgramsInDept := [], DeptAreaNeeded := 100,
            DeptAreaProportionNeeded := 1, CirculationFactor := 1.5, Floor := 1,
            DeptPolygon := some [(10, 10), (20, 10), (20, 25), (10, 25)] } ] ∧
    place_departments_on_site
      { departments := [ { name := some "A" } ],
        kpu_widths := some [], kpu_depths := some [] } 50 = none := by
  obtain ⟨h1, h2, h3, h4⟩ := packer_degenerate_c7
  refine ⟨h1 {} 50 rfl, h2 10, h3 _ 10 ?_, (h4 _ 50 (by simp) rfl).1⟩
  intro d hd
  simp at hd
  rw [hd]

end Dynamo
